import Mathlib

/-!
Verification of the alice-entreprebot server (src/server.js) against its
natural-language specification.

The JavaScript server is shallowly embedded: every route handler becomes a
Lean function over an explicit `ServerState`; JSON-number arithmetic is
modelled over `Rat` (with a `JsNum` sum type capturing the non-finite IEEE
values `Infinity`, `-Infinity`, `NaN` that JS division by zero produces);
`uuid()` is modelled as a fresh-counter draw; `jwt.sign`/`jwt.verify` are
modelled by a concrete injective serialization of the payload plus the
signing secret, so that tampering with the secret is detectable and the
`authorization`-header string manipulation of `requireStaff` can be
reasoned about on actual character lists.
-/

set_option autoImplicit false

namespace AliceBot

/-! ## JS numeric primitives -/

/-- Model of JS `Math.round`: round half toward positive infinity. -/
def jsRound (q : Rat) : Int := ⌊q + 1 / 2⌋

/-- Model of a JS number that may be non-finite: JS division by zero yields
`Infinity`, `-Infinity` or `NaN` rather than an error. -/
inductive JsNum where
  | finite (q : Rat)
  | posInf
  | negInf
  | nan
deriving DecidableEq, Repr

/-- Model of JS division `a / b`, including the zero-denominator cases. -/
def jsDiv (a b : Rat) : JsNum :=
  if b = 0 then
    if 0 < a then JsNum.posInf else if a < 0 then JsNum.negInf else JsNum.nan
  else JsNum.finite (a / b)

/-- Model of `Number(x.toFixed(2))`: a finite value is rounded to two decimal
places (ties upward, which agrees with JS on the values reached here); a
non-finite value passes through unchanged, exactly as
`Number((1/0).toFixed(2))` evaluates to `Infinity` in JS. -/
def jsToFixed2 : JsNum → JsNum
  | JsNum.finite q => JsNum.finite ((jsRound (q * 100) : Rat) / 100)
  | n => n

/-! ## Forecast endpoint (src/server.js lines 151-165) -/

/-- Response shape of `POST /insights/forecast`. -/
structure ForecastResult where
  baselineWeeklyRevenue : Rat
  projectedWeeklyRevenue : Int
  paydayBoost : Rat
  trendBoost : Rat
  marketingSpend : Rat
  estimatedROI : JsNum
deriving DecidableEq, Repr

/-- Core arithmetic of the forecast handler, for already-resolved parameters:
`projected = Math.round(baseline * (1 + paydayBoost + trendBoost))`,
`roi = ((projected - baseline) - spend) / spend`, reported via `toFixed(2)`. -/
def forecastCalc (baselineWeeklyRevenue marketingSpend : Rat) : ForecastResult :=
  let paydayBoost : Rat := 12 / 100
  let trendBoost : Rat := 5 / 100
  let projected : Int := jsRound (baselineWeeklyRevenue * (1 + paydayBoost + trendBoost))
  let roi : JsNum := jsDiv (((projected : Rat) - baselineWeeklyRevenue) - marketingSpend) marketingSpend
  { baselineWeeklyRevenue := baselineWeeklyRevenue
    projectedWeeklyRevenue := projected
    paydayBoost := paydayBoost
    trendBoost := trendBoost
    marketingSpend := marketingSpend
    estimatedROI := jsToFixed2 roi }

/-- The forecast handler as seen from the request body: destructuring with
defaults `baselineWeeklyRevenue = 10000`, `marketingSpend = 1500` when the
field is absent. -/
def forecastHandler (baselineWeeklyRevenue marketingSpend : Option Rat) : ForecastResult :=
  forecastCalc (baselineWeeklyRevenue.getD 10000) (marketingSpend.getD 1500)

/-- Projection described by the sentence of the spec, modelled from the words of
the spec for comparison with the code: the 12% and 5% lifts multiplicatively,
`round(baseline * 1.12 * 1.05)`. -/
def specProjectedMultiplicative (baseline : Rat) : Int :=
  jsRound (baseline * (112 / 100) * (105 / 100))

/-- The projected revenue at the default baseline evaluates to 11700. -/
lemma projected_at_10000 : jsRound ((10000 : Rat) * (1 + 12 / 100 + 5 / 100)) = 11700 := by
  unfold jsRound
  norm_num

/-- C4: forecast with baselineWeeklyRevenue = 10000 and marketingSpend = 1500
returns projectedWeeklyRevenue = round(10000 * 1.17) = 11700 and
estimatedROI = ((11700 - 10000) - 1500) / 1500 rounded to 2 decimals = 0.13. -/
theorem c4_forecast_value :
    (forecastCalc 10000 1500).projectedWeeklyRevenue = 11700 ∧
    (forecastCalc 10000 1500).estimatedROI = JsNum.finite (13 / 100) := by
  constructor
  · exact projected_at_10000
  · show jsToFixed2 (jsDiv (((jsRound ((10000 : Rat) * (1 + 12 / 100 + 5 / 100)) : Rat) - 10000) - 1500) 1500) = JsNum.finite (13 / 100)
    rw [projected_at_10000]
    unfold jsDiv jsToFixed2 jsRound
    norm_num

/-- C5 counterexample: at baseline = 10000 (spend = 1500) the projected
revenue of the code, 11700, differs from the multiplicative composition
round(10000 * 1.12 * 1.05) = 11760 that the claim states. -/
theorem c5_multiplicative_counterexample :
    (forecastCalc 10000 1500).projectedWeeklyRevenue = 11700 ∧
    specProjectedMultiplicative 10000 = 11760 ∧
    (forecastCalc 10000 1500).projectedWeeklyRevenue ≠ specProjectedMultiplicative 10000 := by
  have h1 : (forecastCalc 10000 1500).projectedWeeklyRevenue = 11700 := projected_at_10000
  have h2 : specProjectedMultiplicative 10000 = 11760 := by
    unfold specProjectedMultiplicative jsRound
    norm_num
  exact ⟨h1, h2, by rw [h1, h2]; decide⟩

/-- C5 amended: for every baseline (and any spend), the projected revenue is
the baseline with the 12% payday lift and the 5% trend lift applied
additively, i.e. baseline * (1 + 0.12 + 0.05) = baseline * 1.17, rounded to
the nearest integer. -/
theorem c5_additive_lift (baseline spend : Rat) :
    (forecastCalc baseline spend).projectedWeeklyRevenue = jsRound (baseline * (117 / 100)) := by
  show jsRound (baseline * (1 + 12 / 100 + 5 / 100)) = jsRound (baseline * (117 / 100))
  have h : (1 + 12 / 100 + 5 / 100 : Rat) = 117 / 100 := by norm_num
  rw [h]

/-- C6: at marketingSpend = 0 the handler divides by zero and the reported
estimatedROI is the propagated JS `Infinity`, not a defined sentinel or
error. -/
theorem c6_zero_spend_infinity :
    (forecastHandler (some 10000) (some 0)).estimatedROI = JsNum.posInf := by
  show jsToFixed2 (jsDiv (((jsRound ((10000 : Rat) * (1 + 12 / 100 + 5 / 100)) : Rat) - 10000) - 0) 0) = JsNum.posInf
  rw [projected_at_10000]
  unfold jsDiv jsToFixed2
  norm_num

/-- C7: a request with both forecast parameters omitted substitutes
baseline = 10000 and spend = 1500 and returns a result identical to the
literal call with those values. -/
theorem c7_default_substitution :
    forecastHandler none none = forecastHandler (some 10000) (some 1500) := rfl

/-! ## Character-list strings, token serialization and the JWT model

JS strings are modelled as `List Char` where character-level manipulation
matters (the `authorization` header). A signed token is a concrete
serialization of the payload fields plus the signing secret, separated by
periods; the field encodings use only the characters 0, 1 and comma, so a
serialized token never contains a space or a period inside a field, which is
what makes parsing unambiguous and lets the handling of the literal header
text by `requireStaff` be analysed faithfully. -/

/-- Little-endian binary digits of a natural number, over the characters
0 and 1. -/
def natBits (n : Nat) : List Char :=
  if n = 0 then [] else (if n % 2 = 1 then '1' else '0') :: natBits (n / 2)
  decreasing_by simp_wf; omega

/-- Reads back a little-endian binary digit list. -/
def bitsNat : List Char → Nat
  | [] => 0
  | c :: rest => (if c = '1' then 1 else 0) + 2 * bitsNat rest

lemma bitsNat_natBits (n : Nat) : bitsNat (natBits n) = n := by
  induction n using natBits.induct with
  | case1 => simp [natBits, bitsNat]
  | case2 n h ih =>
    rw [natBits, if_neg h]
    rcases Nat.mod_two_eq_zero_or_one n with h2 | h2
    · rw [h2]
      show (if ('0' : Char) = '1' then 1 else 0) + 2 * bitsNat (natBits (n / 2)) = n
      rw [if_neg (by decide), ih]
      omega
    · rw [h2]
      show (if ('1' : Char) = '1' then 1 else 0) + 2 * bitsNat (natBits (n / 2)) = n
      rw [if_pos rfl, ih]
      omega

lemma mem_natBits : ∀ {n : Nat} {c : Char}, c ∈ natBits n → c = '0' ∨ c = '1' := by
  intro n
  induction n using natBits.induct with
  | case1 => intro c hc; rw [natBits, if_pos rfl] at hc; cases hc
  | case2 n h ih =>
    intro c hc
    rw [natBits, if_neg h] at hc
    rcases List.mem_cons.mp hc with h1 | h1
    · rcases Nat.mod_two_eq_zero_or_one n with h2 | h2 <;> rw [h2] at h1
      · exact Or.inl (by simpa using h1)
      · exact Or.inr (by simpa using h1)
    · exact ih h1

/-- Splits a character list at the first occurrence of the separator:
returns the part before it and the part after it. -/
def splitField (sep : Char) : List Char → List Char × List Char
  | [] => ([], [])
  | c :: rest =>
    if c = sep then ([], rest)
    else
      let p := splitField sep rest
      (c :: p.1, p.2)

lemma splitField_append (sep : Char) (g rest : List Char) (hg : sep ∉ g) :
    splitField sep (g ++ sep :: rest) = (g, rest) := by
  induction g with
  | nil => simp [splitField]
  | cons c g ih =>
    have hc : ¬ c = sep := fun h => hg (by simp [h])
    have hg2 : sep ∉ g := fun h => hg (by simp [h])
    rw [List.cons_append]
    simp only [splitField, List.append_eq, if_neg hc]
    rw [ih hg2]

lemma splitField_snd_length_le (sep : Char) (l : List Char) :
    (splitField sep l).2.length ≤ l.length := by
  induction l with
  | nil => simp [splitField]
  | cons c rest ih =>
    by_cases hc : c = sep
    · simp [splitField, hc]
    · simp only [splitField, if_neg hc]
      exact Nat.le_trans ih (Nat.le_succ _)

lemma splitField_snd_length_lt (sep : Char) (c : Char) (rest : List Char) :
    (splitField sep (c :: rest)).2.length < (c :: rest).length := by
  by_cases hc : c = sep
  · simp [splitField, hc]
  · simp only [splitField, if_neg hc, List.length_cons]
    exact Nat.lt_succ_of_le (splitField_snd_length_le sep rest)

/-- Encodes a character list: each character becomes the binary digits of its
code point followed by a comma. -/
def encStr : List Char → List Char
  | [] => []
  | c :: rest => natBits c.toNat ++ ',' :: encStr rest

/-- Decodes what `encStr` produced: repeatedly reads digits up to a comma. -/
def decStr : List Char → List Char
  | [] => []
  | c :: rest =>
    let p := splitField ',' (c :: rest)
    Char.ofNat (bitsNat p.1) :: decStr p.2
  termination_by l => l.length
  decreasing_by exact splitField_snd_length_lt ',' c rest

lemma mem_encStr {s : List Char} {c : Char} (hc : c ∈ encStr s) :
    c = '0' ∨ c = '1' ∨ c = ',' := by
  induction s with
  | nil => cases hc
  | cons a s ih =>
    rw [encStr] at hc
    rcases List.mem_append.mp hc with h1 | h1
    · rcases mem_natBits h1 with h2 | h2
      · exact Or.inl h2
      · exact Or.inr (Or.inl h2)
    · rcases List.mem_cons.mp h1 with h2 | h2
      · exact Or.inr (Or.inr h2)
      · exact ih h2

lemma decStr_cons (g rest : List Char) (hg : ',' ∉ g) :
    decStr (g ++ ',' :: rest) = Char.ofNat (bitsNat g) :: decStr rest := by
  have h := splitField_append ',' g rest hg
  cases g with
  | nil =>
    rw [List.nil_append] at h ⊢
    simp only [decStr]
    rw [h]
  | cons c g =>
    rw [List.cons_append] at h ⊢
    simp only [decStr]
    rw [h]

lemma decStr_encStr (s : List Char) : decStr (encStr s) = s := by
  induction s with
  | nil => simp only [encStr, decStr]
  | cons c s ih =>
    rw [encStr, decStr_cons _ _ (fun h => by rcases mem_natBits h with h1 | h1 <;> cases h1)]
    rw [bitsNat_natBits, Char.ofNat_toNat, ih]

lemma encStr_inj {s t : List Char} (h : encStr s = encStr t) : s = t := by
  have := congrArg decStr h
  rwa [decStr_encStr, decStr_encStr] at this

/-- Tests whether the first list appears at the very start of the second. -/
def leadsWith : List Char → List Char → Bool
  | [], _ => true
  | _ :: _, [] => false
  | p :: ps, c :: cs => p = c && leadsWith ps cs

lemma leadsWith_append (p t : List Char) : leadsWith p (p ++ t) = true := by
  induction p with
  | nil => rfl
  | cons a p ih => simp [leadsWith, ih]

lemma mem_of_leadsWith {p s : List Char} (h : leadsWith p s = true) {x : Char}
    (hx : x ∈ p) : x ∈ s := by
  induction p generalizing s with
  | nil => cases hx
  | cons a p ih =>
    cases s with
    | nil => cases h
    | cons c cs =>
      rw [leadsWith, Bool.and_eq_true, decide_eq_true_eq] at h
      rcases List.mem_cons.mp hx with h1 | h1
      · exact List.mem_cons.mpr (Or.inl (h1.trans h.1))
      · exact List.mem_cons.mpr (Or.inr (ih h.2 h1))

/-- Model of `auth.replace("Bearer ", "")` for a fixed pattern: removes the
first (leftmost) occurrence of the pattern, and leaves the string unchanged
when the pattern does not occur. -/
def removeFirstOcc (pat : List Char) : List Char → List Char
  | [] => []
  | c :: rest =>
    if leadsWith pat (c :: rest) then (c :: rest).drop pat.length
    else c :: removeFirstOcc pat rest

lemma removeFirstOcc_append (pat t : List Char) (hp : pat ≠ []) :
    removeFirstOcc pat (pat ++ t) = t := by
  cases pat with
  | nil => exact absurd rfl hp
  | cons a ps =>
    rw [List.cons_append, removeFirstOcc, if_pos (by rw [← List.cons_append]; exact leadsWith_append _ t)]
    rw [← List.cons_append, List.drop_left]

lemma removeFirstOcc_of_not_mem (pat s : List Char) (x : Char) (hx : x ∈ pat)
    (hs : x ∉ s) : removeFirstOcc pat s = s := by
  induction s with
  | nil => rfl
  | cons c rest ih =>
    have hlead : ¬ leadsWith pat (c :: rest) = true := fun h => hs (mem_of_leadsWith h hx)
    rw [removeFirstOcc, if_neg hlead, ih (fun h => hs (List.mem_cons.mpr (Or.inr h)))]

/-! ## JWT sign and verify (jsonwebtoken, as used on src/server.js lines 52 and 61) -/

/-- Claims carried by a session token: `jwt.sign({ staffId, businessId, role },
JWT_SECRET, { expiresIn: "8h" })` stores these three fields plus the expiry
time (issuance time plus 8 hours, in seconds). -/
structure TokenPayload where
  staffId : Nat
  businessId : Nat
  role : String
  exp : Nat
deriving DecidableEq, Repr

/-- Eight hours in seconds: the fixed token lifetime from `expiresIn: "8h"`. -/
def tokenLifetime : Nat := 28800

/-- Serializes and signs a payload: the four claim fields and the signature
(determined by the secret), separated by periods. -/
def jwtSign (p : TokenPayload) (secret : String) : List Char :=
  natBits p.staffId ++ '.' ::
    (natBits p.businessId ++ '.' ::
      (encStr p.role.toList ++ '.' ::
        (natBits p.exp ++ '.' :: encStr secret.toList)))

/-- Verifies a token against a secret at a given time (seconds): parses the
four fields and the signature, rejects a signature that was not produced
with this secret, rejects an expired token, and otherwise returns the
decoded claims. -/
def jwtVerify (tok : List Char) (secret : String) (nowSec : Nat) : Option TokenPayload :=
  let p1 := splitField '.' tok
  let p2 := splitField '.' p1.2
  let p3 := splitField '.' p2.2
  let p4 := splitField '.' p3.2
  let payload : TokenPayload :=
    { staffId := bitsNat p1.1
      businessId := bitsNat p2.1
      role := String.mk (decStr p3.1)
      exp := bitsNat p4.1 }
  if p4.2 = encStr secret.toList ∧ nowSec < payload.exp then some payload else none

lemma not_dot_mem_natBits (n : Nat) : '.' ∉ natBits n := by
  intro h
  rcases mem_natBits h with h1 | h1 <;> cases h1

lemma not_dot_mem_encStr (s : List Char) : '.' ∉ encStr s := by
  intro h
  rcases mem_encStr h with h1 | h1 | h1 <;> cases h1

lemma jwtVerify_jwtSign (p : TokenPayload) (secret : String) (nowSec : Nat) :
    jwtVerify (jwtSign p secret) secret nowSec =
      if nowSec < p.exp then some p else none := by
  rw [jwtVerify, jwtSign]
  rw [splitField_append '.' _ _ (not_dot_mem_natBits _)]
  rw [splitField_append '.' _ _ (not_dot_mem_natBits _)]
  rw [splitField_append '.' _ _ (not_dot_mem_encStr _)]
  rw [splitField_append '.' _ _ (not_dot_mem_natBits _)]
  simp only [bitsNat_natBits, decStr_encStr]
  by_cases hexp : nowSec < p.exp
  · rw [if_pos ⟨trivial, hexp⟩, if_pos hexp]
    rfl
  · rw [if_neg (fun h => hexp h.2), if_neg hexp]

lemma jwtVerify_jwtSign_wrong_secret (p : TokenPayload) (secret other : String)
    (hne : other ≠ secret) (nowSec : Nat) :
    jwtVerify (jwtSign p secret) other nowSec = none := by
  rw [jwtVerify, jwtSign]
  rw [splitField_append '.' _ _ (not_dot_mem_natBits _)]
  rw [splitField_append '.' _ _ (not_dot_mem_natBits _)]
  rw [splitField_append '.' _ _ (not_dot_mem_encStr _)]
  rw [splitField_append '.' _ _ (not_dot_mem_natBits _)]
  have hsig : encStr secret.toList ≠ encStr other.toList := by
    intro h
    apply hne
    have h2 := encStr_inj h
    have h3 := congrArg String.mk h2
    simpa using h3.symm
  rw [if_neg (fun h => hsig h.1)]

/-! ## The staff gate (src/server.js lines 56-66) -/

/-- The literal text "Bearer " (capital B, then e-a-r-e-r and a space) that
`requireStaff` strips from the authorization header, as a character list. -/
def bearerPat : List Char := ['B', 'e', 'a', 'r', 'e', 'r', ' ']

/-- The staff gate: 401 when the authorization header is absent; otherwise
the first occurrence of "Bearer " is removed from the header and the result
is verified as a token. `none` models the 401 response. -/
def requireStaff (auth : Option (List Char)) (secret : String) (nowSec : Nat) :
    Option TokenPayload :=
  match auth with
  | none => none
  | some a => jwtVerify (removeFirstOcc bearerPat a) secret nowSec

lemma not_space_mem_jwtSign (p : TokenPayload) (secret : String) :
    ' ' ∉ jwtSign p secret := by
  intro h
  rw [jwtSign] at h
  simp only [List.mem_append, List.mem_cons] at h
  rcases h with h | h | h | h | h | h | h | h | h
  · rcases mem_natBits h with h1 | h1 <;> cases h1
  · cases h
  · rcases mem_natBits h with h1 | h1 <;> cases h1
  · cases h
  · rcases mem_encStr h with h1 | h1 | h1 <;> cases h1
  · cases h
  · rcases mem_natBits h with h1 | h1 <;> cases h1
  · cases h
  · rcases mem_encStr h with h1 | h1 | h1 <;> cases h1

lemma removeFirstOcc_jwtSign (p : TokenPayload) (secret : String) :
    removeFirstOcc bearerPat (jwtSign p secret) = jwtSign p secret :=
  removeFirstOcc_of_not_mem bearerPat (jwtSign p secret) ' ' (by decide)
    (not_space_mem_jwtSign p secret)

/-! ## Data model: the in-memory stores of src/server.js lines 15-21 -/

/-- A business record: `businesses[businessId] = { name, industry, timezone }`. -/
structure BusinessRec where
  name : String
  industry : String
  timezone : String
deriving DecidableEq, Repr

/-- A staff record (line 18 and `POST /staff/create`). -/
structure StaffRec where
  id : Nat
  businessId : Nat
  name : String
  nationalId : String
  pin : String
  role : String
deriving DecidableEq, Repr

/-- A booking record (line 16 and `POST /bookings`); `whenAt` models the
field named when in the source. -/
structure Booking where
  id : Nat
  businessId : Nat
  clientName : String
  contact : String
  service : String
  whenAt : String
  staffId : Option Nat
  notes : String
  status : String
deriving DecidableEq, Repr

/-- A lead record (line 17 and `POST /leads`). -/
structure Lead where
  id : Nat
  businessId : Nat
  name : String
  contact : String
  service : String
  budget : String
  source : String
  notes : String
deriving DecidableEq, Repr

/-- An attendance event (line 19 and `POST /staff/clock-in` / `clock-out`). -/
structure AttEvent where
  id : Nat
  staffId : Nat
  businessId : Nat
  type : String
  timestamp : String
deriving DecidableEq, Repr

/-- An overtime request (line 20 and `POST /staff/overtime`). -/
structure OvertimeReq where
  id : Nat
  staffId : Nat
  businessId : Nat
  hours : Rat
  reason : String
  status : String
deriving DecidableEq, Repr

/-- One FAQ entry `{ q, a }`. -/
structure FaqItem where
  q : String
  a : String
deriving DecidableEq, Repr

/-- Functional model of assignment into a JS object used as a map:
replaces the value at the key if present, otherwise adds the key. -/
def assocSet {α : Type} (k : Nat) (v : α) : List (Nat × α) → List (Nat × α)
  | [] => [(k, v)]
  | (k2, v2) :: rest => if k = k2 then (k, v) :: rest else (k2, v2) :: assocSet k v rest

/-- Functional model of indexing a JS object used as a map. -/
def assocGet {α : Type} (k : Nat) (l : List (Nat × α)) : Option α :=
  (l.find? (fun e => e.1 == k)).map (fun e => e.2)

lemma assocGet_set_self {α : Type} (k : Nat) (v : α) (l : List (Nat × α)) :
    assocGet k (assocSet k v l) = some v := by
  induction l with
  | nil => simp [assocSet, assocGet, List.find?_cons]
  | cons e rest ih =>
    rcases e with ⟨k2, v2⟩
    by_cases hk : k = k2
    · simp [assocSet, if_pos hk, assocGet, List.find?_cons]
    · rw [assocSet, if_neg hk]
      simp only [assocGet, List.find?_cons] at ih ⊢
      have hc : ((k2, v2).1 == k) = false := by
        simp only [beq_eq_false_iff_ne]
        exact fun h => hk h.symm
      rw [hc]
      exact ih

lemma assocGet_set_ne {α : Type} (k k2 : Nat) (v : α) (l : List (Nat × α))
    (hne : k2 ≠ k) : assocGet k2 (assocSet k v l) = assocGet k2 l := by
  have hkk : (k == k2) = false := by
    simp only [beq_eq_false_iff_ne]
    exact fun h => hne h.symm
  induction l with
  | nil =>
    simp only [assocSet, assocGet, List.find?_cons, List.find?_nil]
    rw [hkk]
  | cons e rest ih =>
    rcases e with ⟨k3, v3⟩
    by_cases hk : k = k3
    · subst hk
      rw [assocSet, if_pos rfl]
      simp only [assocGet, List.find?_cons]
      rw [hkk]
    · rw [assocSet, if_neg hk]
      simp only [assocGet, List.find?_cons] at ih ⊢
      cases hc : ((k3, v3).1 == k2) with
      | true => rfl
      | false => exact ih

/-- The whole in-memory state of the server process. `nextId` models the
`uuid()` generator as a fresh-counter draw. -/
structure ServerState where
  businesses : List (Nat × BusinessRec)
  bookings : List Booking
  leads : List Lead
  staff : List StaffRec
  attendance : List AttEvent
  overtime : List OvertimeReq
  faqs : List (Nat × List FaqItem)
  nextId : Nat
deriving DecidableEq, Repr

/-- The two FAQ entries seeded at business creation. -/
def seedFaqs : List FaqItem :=
  [{ q := ("What are your hours?"), a := ("Mon–Sat 9:00–18:00") },
   { q := ("Do you accept walk-ins?"), a := ("Yes, subject to availability.") }]

/-! ## Route handlers (src/server.js lines 36-125) -/

/-- POST /business/create: stores the business under a fresh id and seeds its
FAQ list; returns the new id. -/
def createBusiness (st : ServerState) (name industry : String) (timezone : Option String) :
    ServerState × Nat :=
  let id := st.nextId
  ({ st with
      businesses := st.businesses ++
        [(id, { name := name, industry := industry, timezone := timezone.getD ("Africa/Johannesburg") })]
      faqs := assocSet id seedFaqs st.faqs
      nextId := id + 1 }, id)

/-- POST /staff/create (tenant-gated): appends a staff record with role
defaulting to "staff"; returns the new id. -/
def createStaff (st : ServerState) (bid : Nat) (name nationalId pin : String)
    (role : Option String) : ServerState × Nat :=
  let id := st.nextId
  ({ st with
      staff := st.staff ++
        [{ id := id, businessId := bid, name := name, nationalId := nationalId,
           pin := pin, role := role.getD ("staff") }]
      nextId := id + 1 }, id)

/-- The predicate of the login lookup on line 50: `x.businessId === bid &&
x.name === name && x.nationalId === nationalId && x.pin === pin`. -/
def staffMatches (bid : Nat) (name nationalId pin : String) (x : StaffRec) : Bool :=
  x.businessId == bid && x.name == name && x.nationalId == nationalId && x.pin == pin

/-- Success payload of POST /staff/login: `{ token, staff: { id, name, role } }`. -/
structure LoginOk where
  token : List Char
  staffId : Nat
  staffName : String
  role : String
deriving DecidableEq, Repr

/-- POST /staff/login (tenant-gated): finds the first staff record of this
tenant matching name, nationalId and pin; `none` models the 401 response. -/
def staffLogin (st : ServerState) (bid : Nat) (name nationalId pin : String)
    (nowSec : Nat) (secret : String) : Option LoginOk :=
  (st.staff.find? (staffMatches bid name nationalId pin)).map fun s =>
    { token := jwtSign
        { staffId := s.id, businessId := bid, role := s.role, exp := nowSec + tokenLifetime } secret
      staffId := s.id
      staffName := s.name
      role := s.role }

/-- Request body of POST /bookings. -/
structure BookingBody where
  clientName : String
  contact : String
  service : String
  whenAt : String
  staffId : Option Nat
  notes : Option String
deriving DecidableEq, Repr

/-- POST /bookings (tenant-gated): appends a booking with status "confirmed",
null staffId when omitted and empty notes when omitted; returns the entry. -/
def createBooking (st : ServerState) (bid : Nat) (body : BookingBody) :
    ServerState × Booking :=
  let entry : Booking :=
    { id := st.nextId, businessId := bid, clientName := body.clientName,
      contact := body.contact, service := body.service, whenAt := body.whenAt,
      staffId := body.staffId, notes := body.notes.getD (""), status := ("confirmed") }
  ({ st with bookings := st.bookings ++ [entry], nextId := st.nextId + 1 }, entry)

/-- GET /bookings (tenant-gated): all bookings of this tenant. -/
def listBookings (st : ServerState) (bid : Nat) : List Booking :=
  st.bookings.filter (fun b => b.businessId == bid)

/-- Request body of POST /leads. -/
structure LeadBody where
  name : String
  contact : String
  service : String
  budget : String
  source : String
  notes : String
deriving DecidableEq, Repr

/-- POST /leads (tenant-gated): appends a lead; returns the entry. -/
def createLead (st : ServerState) (bid : Nat) (body : LeadBody) : ServerState × Lead :=
  let entry : Lead :=
    { id := st.nextId, businessId := bid, name := body.name, contact := body.contact,
      service := body.service, budget := body.budget, source := body.source,
      notes := body.notes }
  ({ st with leads := st.leads ++ [entry], nextId := st.nextId + 1 }, entry)

/-- GET /staff/agenda (session-gated): the bookings of this staff member in their
tenant, excluding cancelled ones. -/
def staffAgenda (st : ServerState) (user : TokenPayload) : List Booking :=
  st.bookings.filter (fun b =>
    b.businessId == user.businessId && b.staffId == some user.staffId &&
      b.status != ("cancelled"))

/-- POST /staff/clock-in (session-gated): appends an attendance event of the
given type for the staff member and tenant of the session. -/
def clockEvent (st : ServerState) (user : TokenPayload) (evType : String)
    (timestamp : String) : ServerState :=
  { st with
      attendance := st.attendance ++
        [{ id := st.nextId, staffId := user.staffId, businessId := user.businessId,
           type := evType, timestamp := timestamp }]
      nextId := st.nextId + 1 }

/-- POST /staff/overtime (session-gated): appends a pending overtime request;
returns the entry. -/
def createOvertime (st : ServerState) (user : TokenPayload) (hours : Rat)
    (reason : String) : ServerState × OvertimeReq :=
  let entry : OvertimeReq :=
    { id := st.nextId, staffId := user.staffId, businessId := user.businessId,
      hours := hours, reason := reason, status := ("pending") }
  ({ st with overtime := st.overtime ++ [entry], nextId := st.nextId + 1 }, entry)

/-- GET /faqs (tenant-gated): `faqs[businessId] || []`. -/
def getFaqs (st : ServerState) (bid : Nat) : List FaqItem :=
  (assocGet bid st.faqs).getD []

/-- POST /faqs (tenant-gated): `faqs[businessId] = req.body.items || []`,
always answering `{ ok: true }` (the returned Bool). A missing or falsy
`items` field is modelled by `none`. -/
def postFaqs (st : ServerState) (bid : Nat) (items : Option (List FaqItem)) :
    ServerState × Bool :=
  ({ st with faqs := assocSet bid (items.getD []) st.faqs }, true)

/-! ## Generic list helpers -/

lemma filter_append_single_false {α : Type} (p : α → Bool) (l : List α) (x : α)
    (hx : ¬ p x = true) : (l ++ [x]).filter p = l.filter p := by
  rw [List.filter_append, List.filter_cons_of_neg hx, List.filter_nil, List.append_nil]

lemma not_mem_filter_of_false {α : Type} (p : α → Bool) (l : List α) (x : α)
    (hx : ¬ p x = true) : x ∉ l.filter p :=
  fun h => hx (List.of_mem_filter h)

lemma find?_first {α : Type} (p : α → Bool) (pre : List α) (s : α) (post : List α)
    (hs : p s = true) (hpre : ∀ y ∈ pre, p y = false) :
    List.find? p (pre ++ s :: post) = some s := by
  induction pre with
  | nil => rw [List.nil_append]; exact List.find?_cons_of_pos _ hs
  | cons a pre ih =>
    rw [List.cons_append, List.find?_cons, hpre a (List.mem_cons_self a pre)]
    exact ih (fun y hy => hpre y (List.mem_cons.mpr (Or.inr hy)))

lemma staffMatches_iff (bid : Nat) (name nationalId pin : String) (x : StaffRec) :
    staffMatches bid name nationalId pin x = true ↔
      x.businessId = bid ∧ x.name = name ∧ x.nationalId = nationalId ∧ x.pin = pin := by
  simp [staffMatches, Bool.and_eq_true, and_assoc]

/-! ## Demo data used by the witness theorems -/

/-- A staff record used in concrete evaluations. -/
def demoStaff1 : StaffRec :=
  { id := 1, businessId := 0, name := ("Jo"), nationalId := ("123"),
    pin := ("9999"), role := ("staff") }

/-- A second staff record with identical credentials but another id and role:
a later duplicate that login can never select. -/
def demoStaff2 : StaffRec :=
  { id := 2, businessId := 0, name := ("Jo"), nationalId := ("123"),
    pin := ("9999"), role := ("admin") }

/-- The demo business record. -/
def demoBusiness : BusinessRec :=
  { name := ("Acme"), industry := ("beauty"), timezone := ("Africa/Johannesburg") }

/-- A small concrete server state: one business (id 0) with its seeded FAQ
list and two staff records. -/
def demoState : ServerState :=
  { businesses := [(0, demoBusiness)]
    bookings := []
    leads := []
    staff := [demoStaff1, demoStaff2]
    attendance := []
    overtime := []
    faqs := [(0, seedFaqs)]
    nextId := 3 }

/-- Session claims for a staff member of tenant 0. -/
def demoPayload : TokenPayload :=
  { staffId := 1, businessId := 0, role := ("staff"), exp := 200 }

/-- Session claims for a staff member of the other tenant, 1. -/
def demoPayloadB : TokenPayload :=
  { staffId := 9, businessId := 1, role := ("staff"), exp := 200 }

/-- A booking request body used in concrete evaluations. -/
def demoBookingBody : BookingBody :=
  { clientName := ("Thandi"), contact := ("071"), service := ("cut"),
    whenAt := ("2025-01-02T10:00"), staffId := some 1, notes := none }

/-- A lead request body used in concrete evaluations. -/
def demoLeadBody : LeadBody :=
  { name := ("Sipho"), contact := ("082"), service := ("color"),
    budget := ("300"), source := ("walk-in"), notes := ("") }

/-- An FAQ entry distinct from the seeded ones. -/
def demoFaq2 : FaqItem := { q := ("Parking?"), a := ("Yes, on-site.") }

/-- The first seeded FAQ entry. -/
def demoFaqSeed : FaqItem :=
  { q := ("What are your hours?"), a := ("Mon–Sat 9:00–18:00") }

/-- Claims bound into the token of the demo login: issued at time 100. -/
def demoLoginPayload : TokenPayload :=
  { staffId := 1, businessId := 0, role := ("staff"), exp := 100 + tokenLifetime }

/-- The login result of the demo login at time 100 with the default secret. -/
def demoLoginOk : LoginOk :=
  { token := jwtSign demoLoginPayload ("dev-secret-change-me")
    staffId := 1
    staffName := ("Jo")
    role := ("staff") }

/-! ## Claim theorems -/

/-- C1: an entity created through any create operation scoped to tenant A
(booking, lead, staff, attendance event, overtime request, FAQ item) never
appears in the result of any list operation scoped to a different tenant B
(GET /bookings, GET /staff/agenda, GET /faqs): the created booking is not in
the booking list of B nor in a B-session agenda, and every B-scoped list result
is left unchanged by every A-scoped create. -/
theorem c1_tenant_isolation (st : ServerState) (A B : Nat) (hne : A ≠ B)
    (body : BookingBody) (lbody : LeadBody)
    (sname snid spin : String) (srole : Option String)
    (uA : TokenPayload) (huA : uA.businessId = A) (evType ts : String)
    (hours : Rat) (reason : String) (items : Option (List FaqItem))
    (uB : TokenPayload) (huB : uB.businessId = B) :
    (createBooking st A body).2 ∉ listBookings (createBooking st A body).1 B ∧
    (createBooking st A body).2 ∉ staffAgenda (createBooking st A body).1 uB ∧
    listBookings (createBooking st A body).1 B = listBookings st B ∧
    staffAgenda (createBooking st A body).1 uB = staffAgenda st uB ∧
    getFaqs (createBooking st A body).1 B = getFaqs st B ∧
    listBookings (createLead st A lbody).1 B = listBookings st B ∧
    staffAgenda (createLead st A lbody).1 uB = staffAgenda st uB ∧
    getFaqs (createLead st A lbody).1 B = getFaqs st B ∧
    listBookings (createStaff st A sname snid spin srole).1 B = listBookings st B ∧
    staffAgenda (createStaff st A sname snid spin srole).1 uB = staffAgenda st uB ∧
    getFaqs (createStaff st A sname snid spin srole).1 B = getFaqs st B ∧
    listBookings (clockEvent st uA evType ts) B = listBookings st B ∧
    staffAgenda (clockEvent st uA evType ts) uB = staffAgenda st uB ∧
    getFaqs (clockEvent st uA evType ts) B = getFaqs st B ∧
    listBookings (createOvertime st uA hours reason).1 B = listBookings st B ∧
    staffAgenda (createOvertime st uA hours reason).1 uB = staffAgenda st uB ∧
    getFaqs (createOvertime st uA hours reason).1 B = getFaqs st B ∧
    listBookings (postFaqs st A items).1 B = listBookings st B ∧
    staffAgenda (postFaqs st A items).1 uB = staffAgenda st uB ∧
    getFaqs (postFaqs st A items).1 B = getFaqs st B := by
  have hbB : ¬ ((createBooking st A body).2.businessId == B) = true :=
    fun h => hne (beq_iff_eq.mp h)
  have hagB : ¬ ((createBooking st A body).2.businessId == uB.businessId &&
      (createBooking st A body).2.staffId == some uB.staffId &&
      (createBooking st A body).2.status != ("cancelled")) = true := by
    intro h
    simp only [Bool.and_eq_true] at h
    exact hne ((beq_iff_eq.mp h.1.1).trans huB)
  refine ⟨?_, ?_, ?_, ?_, rfl, rfl, rfl, rfl, rfl, rfl, rfl, rfl, rfl, rfl,
    rfl, rfl, rfl, rfl, rfl, ?_⟩
  · exact not_mem_filter_of_false _ _ _ hbB
  · exact not_mem_filter_of_false _ _ _ hagB
  · exact filter_append_single_false _ _ _ hbB
  · exact filter_append_single_false _ _ _ hagB
  · show (assocGet B (assocSet A (items.getD []) st.faqs)).getD [] =
      (assocGet B st.faqs).getD []
    rw [assocGet_set_ne A B _ _ (Ne.symm hne)]

/-- C1 witness: the isolation theorem applied to the concrete demo state with
tenants 0 and 1. -/
theorem c1_tenant_isolation_witness :
    (0 : Nat) ≠ 1 ∧ demoPayload.businessId = 0 ∧ demoPayloadB.businessId = 1 ∧
    listBookings (createBooking demoState 0 demoBookingBody).1 1 = listBookings demoState 1 ∧
    getFaqs (postFaqs demoState 0 (some [demoFaq2])).1 1 = getFaqs demoState 1 := by
  have h := c1_tenant_isolation demoState 0 1 (by decide) demoBookingBody demoLeadBody
    ("Ann") ("999") ("1111") none demoPayload rfl ("in") ("2025-01-02T08:00")
    2 ("deadline") (some [demoFaq2]) demoPayloadB rfl
  obtain ⟨-, -, h3, -, -, -, -, -, -, -, -, -, -, -, -, -, -, -, -, h20⟩ := h
  exact ⟨by decide, rfl, rfl, h3, h20⟩

/-- C2: login returns success iff some staff record of the tenant string-equals
the name, nationalId and pin of the request (any mismatch yields 401), and when
several records match, the one used is the first in insertion order: its id,
name and role are returned and its id and role are what the token binds. -/
theorem c2_login_correct (st : ServerState) (bid : Nat) (name nationalId pin : String)
    (nowSec : Nat) (secret : String) :
    ((staffLogin st bid name nationalId pin nowSec secret).isSome ↔
      ∃ x ∈ st.staff, x.businessId = bid ∧ x.name = name ∧
        x.nationalId = nationalId ∧ x.pin = pin) ∧
    (∀ pre s post, st.staff = pre ++ s :: post →
      (s.businessId = bid ∧ s.name = name ∧ s.nationalId = nationalId ∧ s.pin = pin) →
      (∀ y ∈ pre, ¬ (y.businessId = bid ∧ y.name = name ∧
        y.nationalId = nationalId ∧ y.pin = pin)) →
      staffLogin st bid name nationalId pin nowSec secret = some
        { token := jwtSign { staffId := s.id, businessId := bid, role := s.role, exp := nowSec + tokenLifetime } secret
          staffId := s.id
          staffName := s.name
          role := s.role }) := by
  constructor
  · have hiso : (staffLogin st bid name nationalId pin nowSec secret).isSome
        = (st.staff.find? (staffMatches bid name nationalId pin)).isSome := by
      rw [staffLogin]
      cases st.staff.find? (staffMatches bid name nationalId pin) <;> rfl
    rw [hiso, List.find?_isSome]
    exact exists_congr fun x => and_congr_right fun _ => staffMatches_iff bid name nationalId pin x
  · intro pre s post hsplit hs hpre
    rw [staffLogin, hsplit]
    rw [find?_first (staffMatches bid name nationalId pin) pre s post
      ((staffMatches_iff bid name nationalId pin s).mpr hs)
      (fun y hy => Bool.eq_false_iff.mpr
        (fun h => hpre y hy ((staffMatches_iff bid name nationalId pin y).mp h)))]
    rfl

/-- C2 witness: at the demo state, whose staff list holds two records with
identical credentials, login with the matching triple succeeds and selects
the first record (id 1, role "staff"), not the later duplicate. -/
theorem c2_login_correct_witness :
    demoState.staff = [] ++ demoStaff1 :: [demoStaff2] ∧
    (demoStaff1.businessId = 0 ∧ demoStaff1.name = ("Jo") ∧
      demoStaff1.nationalId = ("123") ∧ demoStaff1.pin = ("9999")) ∧
    staffLogin demoState 0 ("Jo") ("123") ("9999") 100 ("dev-secret-change-me") =
      some demoLoginOk := by
  refine ⟨rfl, ⟨rfl, rfl, rfl, rfl⟩, ?_⟩
  exact (c2_login_correct demoState 0 ("Jo") ("123") ("9999") 100
    ("dev-secret-change-me")).2 [] demoStaff1 [demoStaff2] rfl
    ⟨rfl, rfl, rfl, rfl⟩ (fun y hy => absurd hy (List.not_mem_nil y))

/-- C3: a token issued by login is accepted by the staff gate while unexpired
and the decoded claims carry exactly the staff id, tenant id and role fixed
at issuance; the same token checked with a different secret is rejected
(401). -/
theorem c3_session_roundtrip (st : ServerState) (bid : Nat)
    (name nationalId pin : String) (nowSec : Nat) (secret : String) (r : LoginOk)
    (hlogin : staffLogin st bid name nationalId pin nowSec secret = some r)
    (t : Nat) (ht : t < nowSec + tokenLifetime) (other : String)
    (hother : other ≠ secret) :
    requireStaff (some r.token) secret t = some
      { staffId := r.staffId, businessId := bid, role := r.role,
        exp := nowSec + tokenLifetime } ∧
    requireStaff (some r.token) other t = none := by
  rw [staffLogin] at hlogin
  obtain ⟨s, hfind, hfs⟩ := Option.map_eq_some'.mp hlogin
  subst hfs
  constructor
  · show jwtVerify (removeFirstOcc bearerPat (jwtSign
      { staffId := s.id, businessId := bid, role := s.role,
        exp := nowSec + tokenLifetime } secret)) secret t = _
    rw [removeFirstOcc_jwtSign, jwtVerify_jwtSign, if_pos ht]
  · show jwtVerify (removeFirstOcc bearerPat (jwtSign
      { staffId := s.id, businessId := bid, role := s.role,
        exp := nowSec + tokenLifetime } secret)) other t = none
    rw [removeFirstOcc_jwtSign]
    exact jwtVerify_jwtSign_wrong_secret _ secret other hother t

/-- C3 witness: the token of the demo login, verified at time 105 (before expiry),
yields staffId 1, businessId 0, role "staff"; under the secret "wrong" the
gate rejects. -/
theorem c3_session_roundtrip_witness :
    staffLogin demoState 0 ("Jo") ("123") ("9999") 100 ("dev-secret-change-me") =
      some demoLoginOk ∧
    105 < 100 + tokenLifetime ∧ ("wrong" : String) ≠ ("dev-secret-change-me") ∧
    requireStaff (some demoLoginOk.token) ("dev-secret-change-me") 105 = some
      { staffId := 1, businessId := 0, role := ("staff"), exp := 100 + tokenLifetime } ∧
    requireStaff (some demoLoginOk.token) ("wrong") 105 = none := by
  have h := c3_session_roundtrip demoState 0 ("Jo") ("123") ("9999") 100
    ("dev-secret-change-me") demoLoginOk rfl 105 (by decide) ("wrong") (by decide)
  exact ⟨rfl, by decide, by decide, h.1, h.2⟩

/-- C8: posting an FAQ list fully replaces the prior list of the tenant: a
subsequent GET /faqs returns exactly the posted items, and any old entry not
present in the new list is absent (no merging). -/
theorem c8_faq_replace (st : ServerState) (bid : Nat) (items : List FaqItem)
    (old : FaqItem) :
    getFaqs (postFaqs st bid (some items)).1 bid = items ∧
    (old ∉ items → old ∉ getFaqs (postFaqs st bid (some items)).1 bid) := by
  have h : getFaqs (postFaqs st bid (some items)).1 bid = items := by
    show (assocGet bid (assocSet bid ((some items).getD []) st.faqs)).getD [] = items
    rw [assocGet_set_self]
    rfl
  exact ⟨h, fun hni hmem => hni (h ▸ hmem)⟩

/-- C8 witness: replacing the seeded FAQ list of tenant 0 with a one-item list
yields exactly that list, and the seeded entry is gone. -/
theorem c8_faq_replace_witness :
    demoFaqSeed ∈ getFaqs demoState 0 ∧
    demoFaqSeed ∉ [demoFaq2] ∧
    getFaqs (postFaqs demoState 0 (some [demoFaq2])).1 0 = [demoFaq2] ∧
    demoFaqSeed ∉ getFaqs (postFaqs demoState 0 (some [demoFaq2])).1 0 := by
  have h := c8_faq_replace demoState 0 [demoFaq2] demoFaqSeed
  have hni : demoFaqSeed ∉ [demoFaq2] := by simp [demoFaqSeed, demoFaq2]
  have hmem : demoFaqSeed ∈ getFaqs demoState 0 := List.mem_cons_self _ _
  exact ⟨hmem, hni, h.1, h.2 hni⟩

/-- C9: POST /faqs with a body whose `items` field is missing or falsy
responds ok = true and replaces the whole FAQ list of the tenant with the empty
list, destroying all existing FAQs instead of rejecting the request. -/
theorem c9_faq_cleared_on_missing_items (st : ServerState) (bid : Nat) :
    getFaqs (postFaqs st bid none).1 bid = [] ∧ (postFaqs st bid none).2 = true := by
  refine ⟨?_, rfl⟩
  show (assocGet bid (assocSet bid ((none : Option (List FaqItem)).getD []) st.faqs)).getD [] = []
  rw [assocGet_set_self]
  rfl

/-- C10: the staff gate accepts a validly signed, unexpired token both with
and without the "Bearer " text in front of it in the authorization header
(only the first occurrence of the text is stripped before verification). -/
theorem c10_bearer_optional (p : TokenPayload) (secret : String) (t : Nat)
    (ht : t < p.exp) :
    requireStaff (some (bearerPat ++ jwtSign p secret)) secret t = some p ∧
    requireStaff (some (jwtSign p secret)) secret t = some p := by
  constructor
  · show jwtVerify (removeFirstOcc bearerPat (bearerPat ++ jwtSign p secret)) secret t = some p
    rw [removeFirstOcc_append bearerPat _ (by decide), jwtVerify_jwtSign, if_pos ht]
  · show jwtVerify (removeFirstOcc bearerPat (jwtSign p secret)) secret t = some p
    rw [removeFirstOcc_jwtSign, jwtVerify_jwtSign, if_pos ht]

/-- C10 witness: the token of the demo payload at time 50 (before its expiry 200)
passes the gate with and without the "Bearer " header text. -/
theorem c10_bearer_optional_witness :
    50 < demoPayload.exp ∧
    requireStaff (some (bearerPat ++ jwtSign demoPayload ("dev-secret-change-me")))
      ("dev-secret-change-me") 50 = some demoPayload ∧
    requireStaff (some (jwtSign demoPayload ("dev-secret-change-me")))
      ("dev-secret-change-me") 50 = some demoPayload := by
  have h := c10_bearer_optional demoPayload ("dev-secret-change-me") 50 (by decide)
  exact ⟨by decide, h.1, h.2⟩

end AliceBot
